import Mathlib

/-!
Verification of the n8n backup/restore scripts (download_n8n_workflows.py,
n8n_backup_onefile.py, restore_n8n_workflows.py) via a shallow embedding.

Strings from the Python source are modelled as Lean `String`s; the character
level operations (per-character replacement, `str.strip()`) are carried out on
`String.data : List Char`.  JSON dictionaries are modelled as ordered
association lists `List (String × Json)`; Python `dict` lookup/assignment
become `dget`/`dset` (first-match lookup, overwrite-in-place-or-append).
Network interaction is modelled by explicit inputs: the paginated listing
endpoint becomes a list of page responses, the detail endpoint a function
`String → Option Detail`, and the create/update endpoints an oracle record
`RestoreEnv`.
-/

namespace N8N

/-! ### Python string helpers -/

/-- The invalid filename characters replaced by `sanitize_filename`
(`invalid_chars = '<>:"/\\|?*'` in both scripts). -/
def invalidChars : List Char := ['<', '>', ':', '"', '/', '\\', '|', '?', '*']

/-- Characters removed by Python `str.strip()` (ASCII whitespace). -/
def pySpace (c : Char) : Bool :=
  c = ' ' || c = '\t' || c = '\n' || c = '\r' || c = '\x0b' || c = '\x0c'

/-- Python `str.strip()`: drop leading and trailing whitespace. -/
def pyStrip (s : List Char) : List Char :=
  ((s.dropWhile pySpace).reverse.dropWhile pySpace).reverse

/-- One step of the loop `name = name.replace(char, '_')`. -/
def replaceChar (c : Char) (s : List Char) : List Char :=
  s.map (fun x => if x = c then '_' else x)

/-- Embeds `sanitize_filename` (identical in download_n8n_workflows.py and
n8n_backup_onefile.py): replace each invalid character by `_`, then strip. -/
def sanitize_filename (name : String) : String :=
  ⟨pyStrip (invalidChars.foldl (fun s c => replaceChar c s) name.data)⟩

/-- The per-character effect of the replacement loop. -/
def sanitizeChar (x : Char) : Char :=
  if x ∈ invalidChars then '_' else x

/-! ### Data model -/

/-- A workflow tag (`{name: ...}`); `none` models a missing `name` key. -/
structure Tag where
  name : Option String
deriving DecidableEq, Repr

/-- A workflow summary as returned by the listing endpoint.  `name = none`
models a missing name key; a missing id is modelled by `id = ""` (the scripts
only ever test the id for truthiness or interpolate it). -/
structure Workflow where
  id : String
  name : Option String
  isArchived : Bool
  tags : List Tag
deriving DecidableEq, Repr

/-- The project object inside a detail payload's `shared[0]`. -/
structure Project where
  name : Option String
  type : Option String
deriving DecidableEq, Repr

/-- One element of the detail payload's `shared` list; `none` models a
missing `project` key. -/
structure SharedEntry where
  project : Option Project
deriving DecidableEq, Repr

/-- The part of a workflow detail payload read by `get_workflow_project`. -/
structure Detail where
  shared : List SharedEntry
deriving DecidableEq, Repr

/-- One response of the paginated listing endpoint: either a page (`data`
plus whether a `nextCursor` was supplied) or a transport/HTTP error. -/
inductive PageResult where
  | ok (data : List Workflow) (next : Bool)
  | err
deriving DecidableEq, Repr

/-- The `data` arrays of the pages the pagination loop actually consumes
(everything up to and including the first terminal page). -/
def consumedData : List PageResult → List Workflow
  | [] => []
  | PageResult.err :: _ => []
  | PageResult.ok ws false :: _ => ws
  | PageResult.ok ws true :: rest => ws ++ consumedData rest

/-- A pagination trace that completes without error: all pages are `ok`,
the run ends at the first page without a next cursor. -/
def completeTrace : List PageResult → Bool
  | [] => false
  | PageResult.err :: _ => false
  | PageResult.ok _ false :: _ => true
  | PageResult.ok _ true :: rest => completeTrace rest

/-! ### Association-list dictionaries (Python `dict` with string keys) -/

/-- Python `d.get(k)` / `d[k]`: first-match lookup. -/
def dget {α : Type} : List (String × α) → String → Option α
  | [], _ => none
  | (a, v) :: d, k => if a = k then some v else dget d k

/-- Python `d[k] = v`: overwrite in place if the key exists, else append. -/
def dset {α : Type} : List (String × α) → String → α → List (String × α)
  | [], k, v => [(k, v)]
  | (a, w) :: d, k, v => if a = k then (k, v) :: d else (a, w) :: dset d k v

/-! ### Paginated fetchers (claim C1)

`download_n8n_workflows.py` breaks out of the loop on a request error and
returns the workflows accumulated so far; `n8n_backup_onefile.py` returns
`[]`; `restore_n8n_workflows.py` returns `{}`. -/

namespace N8NWorkflowDownloader

/-- Loop body of `N8NWorkflowDownloader.get_all_workflows`: on
`RequestException` the source does `break`, returning the accumulator. -/
def get_all_workflows_go (acc : List Workflow) : List PageResult → List Workflow
  | [] => acc
  | PageResult.err :: _ => acc
  | PageResult.ok ws next :: rest =>
    if next then get_all_workflows_go (acc ++ ws) rest else acc ++ ws

/-- Embeds `N8NWorkflowDownloader.get_all_workflows` over a trace of page
responses. -/
def get_all_workflows (pages : List PageResult) : List Workflow :=
  get_all_workflows_go [] pages

end N8NWorkflowDownloader

namespace N8NBackup

/-- Loop body of `N8NBackup.get_all_workflows`: on `RequestException` the
source does `return []`. -/
def get_all_workflows_go (acc : List Workflow) : List PageResult → List Workflow
  | [] => acc
  | PageResult.err :: _ => []
  | PageResult.ok ws next :: rest =>
    if next then get_all_workflows_go (acc ++ ws) rest else acc ++ ws

/-- Embeds `N8NBackup.get_all_workflows` over a trace of page responses. -/
def get_all_workflows (pages : List PageResult) : List Workflow :=
  get_all_workflows_go [] pages

end N8NBackup

namespace N8NWorkflowRestore

/-- One listing-page step of `get_existing_workflows`: insert every workflow
with a truthy (non-empty) name and id into the name→id dict. -/
def insert_page (existing : List (String × String)) (ws : List Workflow) :
    List (String × String) :=
  ws.foldl (fun m w =>
    let name := w.name.getD ""
    if name ≠ "" ∧ w.id ≠ "" then dset m name w.id else m) existing

/-- Loop body of `get_existing_workflows`: on `RequestException` the source
does `return {}`, discarding pages already fetched. -/
def get_existing_workflows_go (existing : List (String × String)) :
    List PageResult → List (String × String)
  | [] => existing
  | PageResult.err :: _ => []
  | PageResult.ok ws next :: rest =>
    if next then get_existing_workflows_go (insert_page existing ws) rest
    else insert_page existing ws

/-- Embeds `N8NWorkflowRestore.get_existing_workflows` over a trace of page
responses: the name→id map of existing remote workflows. -/
def get_existing_workflows (pages : List PageResult) : List (String × String) :=
  get_existing_workflows_go [] pages

end N8NWorkflowRestore

/-! ### Hierarchy organizer

`organize_by_tags` (download_n8n_workflows.py) and `organize_by_folders`
(n8n_backup_onefile.py) have character-identical bodies.  The per-entity
detail lookup performed by `get_workflow_project` is modelled by a function
`details : String → Option Detail` (id → detail payload or fetch failure). -/

/-- Embeds `get_workflow_project` (identical in both backup scripts): resolve the
owning project name from the detail payload's `shared[0].project`, with
`'Unknown Project'` as fallback, truncating personal-project names at the
first `<`. -/
def get_workflow_project (details : String → Option Detail)
    (workflow_id : String) : String :=
  match details workflow_id with
  | none => "Unknown Project"
  | some workflow_data =>
    match workflow_data.shared with
    | [] => "Unknown Project"
    | s0 :: _ =>
      let project_name := (s0.project.bind Project.name).getD "Unknown Project"
      let project_type := (s0.project.bind Project.type).getD ""
      if project_type = "personal" ∧ project_name.data.contains '<' then
        ⟨pyStrip (project_name.data.takeWhile (fun c => !(c == '<')))⟩
      else project_name

/-- The organizer's bucket map: folder path → list of workflows, in
insertion order (Python `dict` of lists). -/
abbrev Org := List (String × List Workflow)

/-- Python `organized[folder_path] = []` if absent, then
`organized[folder_path].append(workflow)`. -/
def addToBucket : Org → String → Workflow → Org
  | [], k, w => [(k, [w])]
  | (a, l) :: d, k, w =>
    if a = k then (a, l ++ [w]) :: d else (a, l) :: addToBucket d k w

/-- Contents of one bucket (empty when the key is absent). -/
def bucket (org : Org) (k : String) : List Workflow :=
  (dget org k).getD []

/-- The loop body of `organize_by_tags` for one active workflow: one bucket
per tag when the workflow has tags (`if tags:`), else the `"No Tag"`
bucket. -/
def organize_step (details : String → Option Detail) (organized : Org)
    (workflow : Workflow) : Org :=
  let project_name_safe := sanitize_filename (get_workflow_project details workflow.id)
  if workflow.tags.isEmpty then
    addToBucket organized (project_name_safe ++ "/No Tag") workflow
  else
    workflow.tags.foldl (fun org tag =>
      addToBucket org
        (project_name_safe ++ "/" ++ sanitize_filename (tag.name.getD "Untagged"))
        workflow) organized

/-- Embeds `N8NWorkflowDownloader.organize_by_tags`: filter out archived workflows,
then bucket every remaining workflow under `project/tag` (one bucket per
tag) or `project/No Tag`. -/
def organize_by_tags (details : String → Option Detail)
    (workflow_list : List Workflow) : Org :=
  let active_workflows := workflow_list.filter (fun w => !w.isArchived)
  active_workflows.foldl (organize_step details) []

/-- Note `N8NBackup.organize_by_folders` has the same body as
`organize_by_tags`. -/
def organize_by_folders (details : String → Option Detail)
    (workflow_list : List Workflow) : Org :=
  organize_by_tags details workflow_list

/-- The list of folder keys one workflow is appended under (with
multiplicity, in tag order). -/
def folderKeys (details : String → Option Detail) (w : Workflow) : List String :=
  let proj := sanitize_filename (get_workflow_project details w.id)
  if w.tags.isEmpty then [proj ++ "/No Tag"]
  else w.tags.map (fun t => proj ++ "/" ++ sanitize_filename (t.name.getD "Untagged"))

/-! ### Restore reconciler (restore_n8n_workflows.py) -/

/-- A JSON value, as far as the restore script inspects it. -/
inductive Json where
  | null
  | bool (b : Bool)
  | num (n : Int)
  | str (s : String)
  | arr (elems : List Json)
  | obj (fields : List (String × Json))

namespace N8NWorkflowRestore

/-- Embeds `clean_workflow_for_api`: keep only the fields accepted by the creation
endpoint (`name`, `nodes`, `connections`), then set `settings` to `{}`. -/
def clean_workflow_for_api (workflow_data : List (String × Json)) :
    List (String × Json) :=
  let allowed_fields := ["name", "nodes", "connections"]
  let cleaned_data := workflow_data.filter (fun kv => kv.1 ∈ allowed_fields)
  dset cleaned_data "settings" (Json.obj [])

/-- Oracle for the remote create/update endpoints: what the server answers
for a given request body (`None`/`False` models a `RequestException`). -/
structure RestoreEnv where
  createResp : List (String × Json) → Option String
  updateResp : String → List (String × Json) → Bool

/-- A mutation request issued against the remote API. -/
inductive Req where
  | create (body : List (String × Json))
  | update (workflow_id : String) (body : List (String × Json))

/-- Embeds `create_workflow`: POST the cleaned body; returns the new id on success,
`none` on failure, together with the request that was sent. -/
def create_workflow (env : RestoreEnv) (workflow_data : List (String × Json)) :
    Option String × Req :=
  let cleaned_data := clean_workflow_for_api workflow_data
  (env.createResp cleaned_data, Req.create cleaned_data)

/-- Embeds `update_workflow`: PUT the full (uncleaned) body to the update-by-id
endpoint. -/
def update_workflow (env : RestoreEnv) (workflow_id : String)
    (workflow_data : List (String × Json)) : Bool × Req :=
  (env.updateResp workflow_id workflow_data, Req.update workflow_id workflow_data)

/-- The per-file result record built by `restore_workflow`. -/
structure RestoreResult where
  file : String
  status : String
  action : Option String
  workflow_id : Option String
deriving DecidableEq, Repr

/-- Unwrapping of the optional metadata envelope, with the cases in which
the Python code would raise (top-level non-object, or a non-object
`workflow` value, where the subsequent `.get` calls fail) mapped to `none`
(→ the `except` branch of `restore_workflow`). -/
def extract_workflow_data : Json → Option (List (String × Json))
  | Json.obj fields =>
    match dget fields "workflow" with
    | some (Json.obj wf) => some wf
    | some _ => none
    | none => some fields
  | _ => none

/-- Python `workflow_data.get('name', 'Unnamed')`, as a lookup key: a missing name
key yields `"Unnamed"`; a present non-string value cannot match any key of
the (string-keyed) existence map, modelled as `none`.  An unhashable name
value (JSON object or array), for which Python's `existing_workflows.get`
raises `TypeError` instead of returning `None`, is routed to the exception
branch by `name_unhashable` before this lookup key is ever used. -/
def name_of (workflow_data : List (String × Json)) : Option String :=
  match dget workflow_data "name" with
  | none => some "Unnamed"
  | some (Json.str s) => some s
  | some _ => none

/-- Whether `workflow_data.get('name', 'Unnamed')` yields an UNHASHABLE
value (a JSON object or array): `existing_workflows.get(workflow_name)`
then raises `TypeError`, caught by the `except` block of
`restore_workflow`.  Null, boolean and numeric name values are hashable and
simply match no string key. -/
def name_unhashable (workflow_data : List (String × Json)) : Bool :=
  match dget workflow_data "name" with
  | some (Json.obj _) => true
  | some (Json.arr _) => true
  | _ => false

/-- Embeds `restore_workflow`: restore a single snapshot file.  `content = none`
models a file whose processing raises (e.g. invalid JSON in `json.load`).
An unhashable `name` value raises `TypeError` inside the `try` block at the
`existing_workflows.get` call, landing in the same `except` branch.
`ts` is the timestamp string used for the `rename` suffix.  Returns the
result record together with the list of mutation requests issued. -/
def restore_workflow (env : RestoreEnv) (ts : String) (file_name : String)
    (content : Option Json) (existing_workflows : List (String × String))
    (mode : String) : RestoreResult × List Req :=
  let base : RestoreResult := ⟨file_name, "unknown", none, none⟩
  match content with
  | none => ({ base with status := "error", action := some "exception" }, [])
  | some backup_data =>
    match extract_workflow_data backup_data with
    | none => ({ base with status := "error", action := some "exception" }, [])
    | some workflow_data =>
      if name_unhashable workflow_data then
        ({ base with status := "error", action := some "exception" }, [])
      else
      match (((name_of workflow_data).bind
          (fun n => dget existing_workflows n)).filter (fun s => !(s == ""))) with
      | some existing_id =>
        if mode = "skip" then
          ({ base with status := "skipped", action := some "exists", workflow_id := some existing_id }, [])
        else if mode = "update" then
          let (ok, req) := update_workflow env existing_id workflow_data
          if ok then
            ({ base with status := "success", action := some "updated", workflow_id := some existing_id }, [req])
          else
            ({ base with status := "failed", action := some "update_failed" }, [req])
        else if mode = "rename" then
          let workflow_name := (name_of workflow_data).getD "Unnamed"
          let new_name := workflow_name ++ " (restored " ++ ts ++ ")"
          let workflow_data' := dset workflow_data "name" (Json.str new_name)
          let (new_id?, req) := create_workflow env workflow_data'
          match new_id? with
          | some new_id =>
            ({ base with status := "success", action := some "created_renamed", workflow_id := some new_id }, [req])
          | none =>
            ({ base with status := "failed", action := some "create_failed" }, [req])
        else (base, [])
      | none =>
        let (new_id?, req) := create_workflow env workflow_data
        match new_id? with
        | some new_id =>
          ({ base with status := "success", action := some "created", workflow_id := some new_id }, [req])
        | none =>
          ({ base with status := "failed", action := some "create_failed" }, [req])

/-- The running stats of `restore_from_backup`. -/
structure Stats where
  total : Nat
  created : Nat
  updated : Nat
  skipped : Nat
  failed : Nat
  results : List RestoreResult
deriving Repr

/-- The per-result counter block at the end of the `restore_from_backup`
loop (append the result, then bump the matching counter). -/
def tally (stats : Stats) (result : RestoreResult) : Stats :=
  let stats := { stats with results := stats.results ++ [result] }
  if result.status = "success" then
    if result.action = some "created" ∨ result.action = some "created_renamed" then
      { stats with created := stats.created + 1 }
    else if result.action = some "updated" then
      { stats with updated := stats.updated + 1 }
    else stats
  else if result.status = "skipped" then
    { stats with skipped := stats.skipped + 1 }
  else if result.status = "failed" ∨ result.status = "error" then
    { stats with failed := stats.failed + 1 }
  else stats

/-- Embeds `restore_from_backup`: the discovered snapshot files are given as
`(file name, parsed content)` pairs (file discovery itself is filesystem
I/O); `pages` is the listing-endpoint trace used to build the existence
map. -/
def restore_from_backup (env : RestoreEnv) (ts : String)
    (pages : List PageResult) (workflow_files : List (String × Option Json))
    (mode : String) (dry_run : Bool) : Stats :=
  let stats : Stats := ⟨workflow_files.length, 0, 0, 0, 0, []⟩
  if workflow_files.length = 0 then stats
  else if dry_run then stats
  else
    let existing_workflows := get_existing_workflows pages
    workflow_files.foldl
      (fun st f => tally st (restore_workflow env ts f.1 f.2 existing_workflows mode).1)
      stats

/-- The remote instance's workflow store (id → stored body), used to state
post-conditions about the requests a restore run issues. -/
abbrev Remote := List (String × List (String × Json))

/-- Effect of one request on the remote store: a successful create appends a
new entity, an update overwrites the body of the matching id in place. -/
def applyReq (env : RestoreEnv) (st : Remote) : Req → Remote
  | Req.create body =>
    match env.createResp body with
    | some new_id => st ++ [(new_id, body)]
    | none => st
  | Req.update workflow_id body =>
    st.map (fun p => if p.1 = workflow_id then (workflow_id, body) else p)

/-- Effect of a request trace on the remote store. -/
def applyReqs (env : RestoreEnv) (st : Remote) (reqs : List Req) : Remote :=
  reqs.foldl (applyReq env) st

end N8NWorkflowRestore

/-! ## Lemmas and theorems -/

theorem foldl_replaceChar_eq_map (s : List Char) :
    invalidChars.foldl (fun s c => replaceChar c s) s = s.map sanitizeChar := by
  simp only [invalidChars, List.foldl_cons, List.foldl_nil, replaceChar, List.map_map]
  refine List.map_congr_left fun x _ => ?_
  by_cases h : x ∈ invalidChars
  · simp only [invalidChars, List.mem_cons, List.not_mem_nil, or_false] at h
    rcases h with h | h | h | h | h | h | h | h | h <;> subst h <;> rfl
  · simp only [invalidChars, List.mem_cons, List.not_mem_nil, or_false] at h
    push_neg at h
    obtain ⟨h1, h2, h3, h4, h5, h6, h7, h8, h9⟩ := h
    simp [sanitizeChar, invalidChars, Function.comp,
      h1, h2, h3, h4, h5, h6, h7, h8, h9]

theorem sanitizeChar_not_invalid (x : Char) : sanitizeChar x ∉ invalidChars := by
  unfold sanitizeChar
  split
  · decide
  · assumption

theorem sanitizeChar_fix_of_not_invalid {x : Char} (h : x ∉ invalidChars) :
    sanitizeChar x = x := by
  simp [sanitizeChar, h]

theorem dropWhile_idem (p : α → Bool) (l : List α) :
    (l.dropWhile p).dropWhile p = l.dropWhile p := by
  induction l with
  | nil => rfl
  | cons a t ih =>
    by_cases h : p a
    · simpa [List.dropWhile_cons, h] using ih
    · simp [List.dropWhile_cons, h]

theorem dropWhile_eq_self_of_dropWhile_eq_self {p : α → Bool} {l l' : List α}
    (h : l.dropWhile p = l) (hpre : l' <+: l) : l'.dropWhile p = l' := by
  cases l' with
  | nil => rfl
  | cons b u =>
    cases l with
    | nil => exact absurd hpre.length_le (by simp)
    | cons a t =>
      have hba : b = a := (List.cons_prefix_cons.mp hpre).1
      have hpa : ¬ p a := by
        intro hp
        rw [List.dropWhile_cons_of_pos hp] at h
        have := congrArg List.length h
        have hle := (List.dropWhile_sublist (l := t) p).length_le
        simp at this
        omega
      rw [List.dropWhile_cons_of_neg (hba ▸ hpa)]

theorem dropTrailing_prefix (p : α → Bool) (l : List α) :
    (l.reverse.dropWhile p).reverse <+: l := by
  have h := List.dropWhile_suffix (l := l.reverse) p
  have := List.reverse_suffix.mpr (by simpa using h.reverse)
  simpa using (List.dropWhile_suffix (l := l.reverse) p).reverse

theorem pyStrip_idem (s : List Char) : pyStrip (pyStrip s) = pyStrip s := by
  unfold pyStrip
  set y := s.dropWhile pySpace with hy
  have hyfix : y.dropWhile pySpace = y := by rw [hy]; exact dropWhile_idem _ _
  set z := (y.reverse.dropWhile pySpace).reverse with hz
  have hzpre : z <+: y := dropTrailing_prefix pySpace y
  have hzfix : z.dropWhile pySpace = z :=
    dropWhile_eq_self_of_dropWhile_eq_self hyfix hzpre
  rw [hzfix, hz]
  simp [dropWhile_idem]

theorem mem_pyStrip {c : Char} {s : List Char} (h : c ∈ pyStrip s) : c ∈ s := by
  unfold pyStrip at h
  rw [List.mem_reverse] at h
  have h1 := (List.dropWhile_sublist (l := (s.dropWhile pySpace).reverse) pySpace).mem h
  rw [List.mem_reverse] at h1
  exact (List.dropWhile_sublist pySpace).mem h1

/-- Claim C5, first half: sanitization is idempotent. -/
theorem sanitize_filename_idem (x : String) :
    sanitize_filename (sanitize_filename x) = sanitize_filename x := by
  unfold sanitize_filename
  apply congrArg String.mk
  rw [foldl_replaceChar_eq_map, foldl_replaceChar_eq_map]
  have hfix : (pyStrip ((x.data).map sanitizeChar)).map sanitizeChar
      = pyStrip ((x.data).map sanitizeChar) := by
    have : ∀ c ∈ pyStrip ((x.data).map sanitizeChar), sanitizeChar c = c := by
      intro c hc
      have hmem : c ∈ (x.data).map sanitizeChar := mem_pyStrip hc
      obtain ⟨a, _, rfl⟩ := List.mem_map.mp hmem
      exact sanitizeChar_fix_of_not_invalid (sanitizeChar_not_invalid a)
    calc (pyStrip ((x.data).map sanitizeChar)).map sanitizeChar
        = (pyStrip ((x.data).map sanitizeChar)).map id := List.map_congr_left this
      _ = pyStrip ((x.data).map sanitizeChar) := List.map_id _
  rw [hfix, pyStrip_idem]

/-- Claim C5, second half: no output character is an invalid character. -/
theorem sanitize_filename_no_invalid (x : String) :
    ∀ c ∈ (sanitize_filename x).data, c ∉ invalidChars := by
  intro c hc
  unfold sanitize_filename at hc
  rw [foldl_replaceChar_eq_map] at hc
  have hmem : c ∈ (x.data).map sanitizeChar := mem_pyStrip hc
  obtain ⟨a, _, rfl⟩ := List.mem_map.mp hmem
  exact sanitizeChar_not_invalid a


theorem dget_dset_self {α : Type} (d : List (String × α)) (k : String) (v : α) :
    dget (dset d k v) k = some v := by
  induction d with
  | nil => simp [dget, dset]
  | cons p d ih =>
    by_cases h : p.1 = k
    · simp [dset, dget, h]
    · simp [dset, dget, h, ih]

theorem dget_dset_ne {α : Type} (d : List (String × α)) {k k' : String} (v : α)
    (h : k' ≠ k) : dget (dset d k v) k' = dget d k' := by
  induction d with
  | nil => simp [dget, dset, Ne.symm h]
  | cons p d ih =>
    by_cases hp : p.1 = k
    · simp [dset, dget, hp, Ne.symm h]
    · by_cases hp' : p.1 = k' <;> simp [dset, dget, hp, hp', h, Ne.symm h, ih]


theorem bucket_addToBucket (d : Org) (k k' : String) (w : Workflow) :
    bucket (addToBucket d k w) k' = bucket d k' ++ (if k' = k then [w] else []) := by
  induction d with
  | nil =>
    by_cases h : k' = k
    · subst h; simp [addToBucket, bucket, dget]
    · simp [addToBucket, bucket, dget, h, Ne.symm h]
  | cons p d ih =>
    obtain ⟨a, l⟩ := p
    simp only [addToBucket]
    by_cases hak : a = k
    · subst hak
      rw [if_pos rfl]
      by_cases h : k' = a
      · subst h; simp [bucket, dget]
      · simp [bucket, dget, h, Ne.symm h]
    · rw [if_neg hak]
      by_cases h : k' = a
      · subst h
        simp [bucket, dget, hak]
      · simp only [bucket, dget, if_neg (Ne.symm h)]
        exact ih

theorem bucket_foldl_addToBucket {β : Type} (keyf : β → String) (ts : List β)
    (d : Org) (k : String) (w : Workflow) :
    bucket (ts.foldl (fun org t => addToBucket org (keyf t) w) d) k
      = bucket d k ++ ((ts.map keyf).filter (fun x => x == k)).map (fun _ => w) := by
  induction ts generalizing d with
  | nil => simp
  | cons t ts ih =>
    rw [List.foldl_cons, ih, bucket_addToBucket]
    by_cases h : keyf t = k
    · simp [h, List.filter_cons]
    · simp [h, Ne.symm h, List.filter_cons]

theorem bucket_organize_step (details : String → Option Detail) (org : Org)
    (w : Workflow) (k : String) :
    bucket (organize_step details org w) k
      = bucket org k ++ ((folderKeys details w).filter (fun x => x == k)).map
          (fun _ => w) := by
  simp only [organize_step, folderKeys]
  by_cases h : w.tags.isEmpty = true
  · rw [if_pos h, if_pos h, bucket_addToBucket]
    by_cases hk : k = sanitize_filename (get_workflow_project details w.id) ++ "/No Tag"
    · simp [hk, List.filter_cons]
    · simp [hk, Ne.symm hk, List.filter_cons]
  · rw [if_neg h, if_neg h]
    exact bucket_foldl_addToBucket _ w.tags org k w

theorem count_bucket_foldl (details : String → Option Detail)
    (l : List Workflow) (org : Org) (w : Workflow) (k : String) :
    (bucket (l.foldl (organize_step details) org) k).count w
      = (bucket org k).count w
        + l.count w * ((folderKeys details w).filter (fun x => x == k)).length := by
  induction l generalizing org with
  | nil => simp
  | cons x l ih =>
    rw [List.foldl_cons, ih, bucket_organize_step, List.count_append]
    have hmap : ((((folderKeys details x).filter (fun y => y == k)).map
        (fun _ => x)).count w)
        = if x = w then ((folderKeys details x).filter (fun y => y == k)).length
          else 0 := by
      rw [List.map_const', List.count_replicate]
      by_cases hxw : x = w
      · simp [hxw]
      · simp [hxw, Ne.symm hxw]
    rw [hmap]
    rcases eq_or_ne x w with hxw | hxw
    · subst hxw
      have h1 : (x :: l).count x = l.count x + 1 := by simp [List.count_cons]
      rw [h1, if_pos rfl, Nat.add_mul, one_mul]
      omega
    · have h1 : (x :: l).count w = l.count w := by
        simp [List.count_cons, hxw, Ne.symm hxw]
      rw [h1, if_neg hxw]
      omega

/-- Complete characterization of bucket contents by counts: a workflow `w`
occurs in bucket `k` once per active occurrence of `w` in the input and per
tag of `w` whose folder key is `k`. -/
theorem organize_count_char (details : String → Option Detail)
    (ws : List Workflow) (w : Workflow) (k : String) :
    (bucket (organize_by_tags details ws) k).count w
      = (ws.filter (fun x => !x.isArchived)).count w
        * ((folderKeys details w).filter (fun x => x == k)).length := by
  unfold organize_by_tags
  rw [count_bucket_foldl]
  simp [bucket, dget]

/-! ## Claim C1: behaviour on a mid-pagination error -/

theorem downloader_go_err (pre : List PageResult)
    (h : ∀ p ∈ pre, ∃ ws, p = PageResult.ok ws true) (acc : List Workflow)
    (rest : List PageResult) :
    N8NWorkflowDownloader.get_all_workflows_go acc (pre ++ PageResult.err :: rest)
      = acc ++ consumedData pre := by
  induction pre generalizing acc with
  | nil => simp [N8NWorkflowDownloader.get_all_workflows_go, consumedData]
  | cons p pre ih =>
    obtain ⟨ws, rfl⟩ := h p (List.mem_cons_self p pre)
    rw [List.cons_append]
    simp only [N8NWorkflowDownloader.get_all_workflows_go, consumedData]
    rw [ih (fun q hq => h q (List.mem_cons_of_mem _ hq)), List.append_assoc]
    simp

theorem backup_go_err (pre : List PageResult)
    (h : ∀ p ∈ pre, ∃ ws, p = PageResult.ok ws true) (acc : List Workflow)
    (rest : List PageResult) :
    N8NBackup.get_all_workflows_go acc (pre ++ PageResult.err :: rest) = [] := by
  induction pre generalizing acc with
  | nil => simp [N8NBackup.get_all_workflows_go]
  | cons p pre ih =>
    obtain ⟨ws, rfl⟩ := h p (List.mem_cons_self p pre)
    rw [List.cons_append]
    simp only [N8NBackup.get_all_workflows_go, if_pos rfl]
    exact ih (fun q hq => h q (List.mem_cons_of_mem _ hq)) _

theorem restore_go_err (pre : List PageResult)
    (h : ∀ p ∈ pre, ∃ ws, p = PageResult.ok ws true)
    (acc : List (String × String)) (rest : List PageResult) :
    N8NWorkflowRestore.get_existing_workflows_go acc (pre ++ PageResult.err :: rest)
      = [] := by
  induction pre generalizing acc with
  | nil => simp [N8NWorkflowRestore.get_existing_workflows_go]
  | cons p pre ih =>
    obtain ⟨ws, rfl⟩ := h p (List.mem_cons_self p pre)
    rw [List.cons_append]
    simp only [N8NWorkflowRestore.get_existing_workflows_go, if_pos rfl]
    exact ih (fun q hq => h q (List.mem_cons_of_mem _ hq)) _

/-- Claim C1, counterexample: after one successfully fetched page holding a
workflow, a transport error on the next page makes
`N8NWorkflowDownloader.get_all_workflows` return that workflow — not the
empty sequence the claim asserts for all three functions. -/
theorem c1_counterexample :
    N8NWorkflowDownloader.get_all_workflows
        [PageResult.ok [⟨"1", some "A", false, []⟩] true, PageResult.err]
      = [⟨"1", some "A", false, []⟩]
    ∧ ([⟨"1", some "A", false, []⟩] : List Workflow) ≠ [] :=
  ⟨rfl, by decide⟩

/-- Claim C1 (amended): on a transport/HTTP error mid-pagination,
`N8NBackup.get_all_workflows` returns the empty sequence and
`N8NWorkflowRestore.get_existing_workflows` returns the empty map, but
`N8NWorkflowDownloader.get_all_workflows` breaks out of the loop and keeps
the entities of the pages already fetched (empty only when the very first
page fails). -/
theorem c1_mid_pagination_error (pre rest : List PageResult)
    (h : ∀ p ∈ pre, ∃ ws, p = PageResult.ok ws true) :
    N8NBackup.get_all_workflows (pre ++ PageResult.err :: rest) = []
    ∧ N8NWorkflowRestore.get_existing_workflows (pre ++ PageResult.err :: rest) = []
    ∧ N8NWorkflowDownloader.get_all_workflows (pre ++ PageResult.err :: rest)
        = consumedData pre :=
  ⟨backup_go_err pre h [] rest, restore_go_err pre h [] rest,
    downloader_go_err pre h [] rest⟩

/-- Witness for C1 at a concrete trace: one fetched page with one workflow,
then an error. -/
theorem c1_mid_pagination_error_witness :
    N8NBackup.get_all_workflows
        [PageResult.ok [⟨"1", some "A", false, []⟩] true, PageResult.err] = []
    ∧ N8NWorkflowRestore.get_existing_workflows
        [PageResult.ok [⟨"1", some "A", false, []⟩] true, PageResult.err] = []
    ∧ N8NWorkflowDownloader.get_all_workflows
        [PageResult.ok [⟨"1", some "A", false, []⟩] true, PageResult.err]
        = consumedData [PageResult.ok [⟨"1", some "A", false, []⟩] true] := by
  have h := c1_mid_pagination_error
    [PageResult.ok [⟨"1", some "A", false, []⟩] true] []
    (fun p hp => ⟨[⟨"1", some "A", false, []⟩], by simpa using hp⟩)
  simpa using h

/-! ## Claims C2-C4: the hierarchy organizer -/

/-- Claim C2, counterexample: a non-archived workflow with the two tags
`"a?"` and `"a*"` (N = 2), which both sanitize to `"a_"`, appears in exactly
one bucket of the organizer's output, not two. -/
theorem c2_counterexample :
    ((organize_by_tags (fun _ => none)
        [⟨"1", some "W", false, [⟨some "a?"⟩, ⟨some "a*"⟩]⟩]).filter
      (fun e => e.2.contains ⟨"1", some "W", false, [⟨some "a?"⟩, ⟨some "a*"⟩]⟩)).length
      = 1
    ∧ (Workflow.tags ⟨"1", some "W", false, [⟨some "a?"⟩, ⟨some "a*"⟩]⟩).length = 2 := by
  decide

/-- Claim C2 (amended): every non-archived entity receives exactly one
placement per tag — in the bucket keyed by the sanitized project name, `/`,
and that tag's sanitized name — and exactly one placement in
`project/No Tag` when it has zero tags.  Formally, the number of occurrences
of `w` in bucket `k` is (active occurrences of `w` in the input) × (number
of folder keys of `w` equal to `k`); when all sanitized tag keys of an
entity are distinct this yields exactly N buckets, but tags sanitizing to
the same key share one bucket. -/
theorem c2_fanout (details : String → Option Detail) (ws : List Workflow)
    (w : Workflow) (k : String) :
    (bucket (organize_by_tags details ws) k).count w
      = (ws.filter (fun x => !x.isArchived)).count w
        * ((folderKeys details w).filter (fun x => x == k)).length
    ∧ folderKeys details w
      = (if w.tags.isEmpty then
          [sanitize_filename (get_workflow_project details w.id) ++ "/No Tag"]
        else w.tags.map (fun t =>
          sanitize_filename (get_workflow_project details w.id) ++ "/"
            ++ sanitize_filename (t.name.getD "Untagged")))
    ∧ (folderKeys details w).length = (if w.tags.isEmpty then 1 else w.tags.length) := by
  refine ⟨organize_count_char details ws w k, rfl, ?_⟩
  by_cases h : w.tags.isEmpty = true <;> simp [folderKeys, h]

/-- Claim C3: an archived workflow is never placed in any bucket of the
organizer's output. -/
theorem c3_archived_never_bucketed (details : String → Option Detail)
    (ws : List Workflow) (k : String) (w : Workflow) (h : w.isArchived = true) :
    w ∉ bucket (organize_by_tags details ws) k := by
  intro hmem
  have hc := organize_count_char details ws w k
  have h0 : (ws.filter (fun x => !x.isArchived)).count w = 0 := by
    refine List.count_eq_zero.mpr fun hmem' => ?_
    rcases List.mem_filter.mp hmem' with ⟨-, hb⟩
    rw [h] at hb
    simp at hb
  rw [h0, Nat.zero_mul] at hc
  exact absurd hmem (List.count_eq_zero.mp hc)

/-- Witness for C3: a concrete archived workflow is absent from the bucket
its project/tag data would otherwise select. -/
theorem c3_archived_never_bucketed_witness :
    (⟨"9", some "Old", true, []⟩ : Workflow)
      ∉ bucket (organize_by_tags (fun _ => none) [⟨"9", some "Old", true, []⟩])
          "Unknown Project/No Tag" :=
  c3_archived_never_bucketed (fun _ => none) [⟨"9", some "Old", true, []⟩]
    "Unknown Project/No Tag" ⟨"9", some "Old", true, []⟩ rfl

theorem mem_bucket_of_key_mem (details : String → Option Detail)
    (ws : List Workflow) (w : Workflow) (k : String)
    (hw : 0 < (ws.filter (fun x => !x.isArchived)).count w)
    (hk : k ∈ folderKeys details w) :
    w ∈ bucket (organize_by_tags details ws) k := by
  have hc := organize_count_char details ws w k
  have hmemf : k ∈ (folderKeys details w).filter (fun x => x == k) :=
    List.mem_filter.mpr ⟨hk, by simp⟩
  have hlen : 0 < ((folderKeys details w).filter (fun x => x == k)).length :=
    List.length_pos.mpr (List.ne_nil_of_mem hmemf)
  have hpos : 0 < (bucket (organize_by_tags details ws) k).count w := by
    rw [hc]; exact Nat.mul_pos hw hlen
  by_contra hmem
  rw [List.count_eq_zero.mpr hmem] at hpos
  exact absurd hpos (by simp)

/-- Claim C4, counterexample: a tag whose name is present but EMPTY is not
mapped to `"Untagged"` — the empty name is used as-is, so the entity lands
in bucket `"Unknown Project/"` and the bucket `"Unknown Project/Untagged"`
stays empty. -/
theorem c4_counterexample :
    bucket (organize_by_tags (fun _ => none) [⟨"1", some "W", false, [⟨some ""⟩]⟩])
      "Unknown Project/Untagged" = []
    ∧ bucket (organize_by_tags (fun _ => none) [⟨"1", some "W", false, [⟨some ""⟩]⟩])
      "Unknown Project/" = [⟨"1", some "W", false, [⟨some ""⟩]⟩] := by
  decide

/-- Claim C4 (amended): only a tag whose name key is MISSING receives the
literal label `"Untagged"`, to which sanitization is then applied like any
other tag name; a tag with a present name — including the empty string —
uses that name (sanitized) instead. -/
theorem c4_untagged_label (details : String → Option Detail) (ws : List Workflow)
    (w : Workflow) (t : Tag)
    (hw : 0 < (ws.filter (fun x => !x.isArchived)).count w) (ht : t ∈ w.tags) :
    (t.name = none →
      w ∈ bucket (organize_by_tags details ws)
        (sanitize_filename (get_workflow_project details w.id) ++ "/"
          ++ sanitize_filename "Untagged"))
    ∧ (∀ s, t.name = some s →
      w ∈ bucket (organize_by_tags details ws)
        (sanitize_filename (get_workflow_project details w.id) ++ "/"
          ++ sanitize_filename s)) := by
  have hne : w.tags ≠ [] := List.ne_nil_of_mem ht
  have hE : w.tags.isEmpty = false := by
    cases hE : w.tags.isEmpty
    · rfl
    · exact absurd (List.isEmpty_iff.mp hE) hne
  have hkeys : folderKeys details w
      = w.tags.map (fun t => sanitize_filename (get_workflow_project details w.id)
          ++ "/" ++ sanitize_filename (t.name.getD "Untagged")) := by
    simp [folderKeys, hE]
  constructor
  · intro hnone
    refine mem_bucket_of_key_mem details ws w _ hw ?_
    rw [hkeys]
    exact List.mem_map.mpr ⟨t, ht, by rw [hnone]; rfl⟩
  · intro s hs
    refine mem_bucket_of_key_mem details ws w _ hw ?_
    rw [hkeys]
    exact List.mem_map.mpr ⟨t, ht, by rw [hs]; rfl⟩

/-- Witness for C4: a workflow with one missing-name tag and one
empty-string-name tag; the first contributes an `"Untagged"` bucket, the
second a bucket keyed by the sanitized empty string. -/
theorem c4_untagged_label_witness :
    ((⟨"1", some "W", false, [⟨none⟩, ⟨some ""⟩]⟩ : Workflow)
      ∈ bucket (organize_by_tags (fun _ => none)
          [⟨"1", some "W", false, [⟨none⟩, ⟨some ""⟩]⟩])
        (sanitize_filename (get_workflow_project (fun _ => none) "1") ++ "/"
          ++ sanitize_filename "Untagged"))
    ∧ ((⟨"1", some "W", false, [⟨none⟩, ⟨some ""⟩]⟩ : Workflow)
      ∈ bucket (organize_by_tags (fun _ => none)
          [⟨"1", some "W", false, [⟨none⟩, ⟨some ""⟩]⟩])
        (sanitize_filename (get_workflow_project (fun _ => none) "1") ++ "/"
          ++ sanitize_filename "")) :=
  ⟨(c4_untagged_label (fun _ => none) [⟨"1", some "W", false, [⟨none⟩, ⟨some ""⟩]⟩]
      ⟨"1", some "W", false, [⟨none⟩, ⟨some ""⟩]⟩ ⟨none⟩ (by decide) (by decide)).1 rfl,
   (c4_untagged_label (fun _ => none) [⟨"1", some "W", false, [⟨none⟩, ⟨some ""⟩]⟩]
      ⟨"1", some "W", false, [⟨none⟩, ⟨some ""⟩]⟩ ⟨some ""⟩ (by decide) (by decide)).2
      "" rfl⟩

/-! ## Claim C5: sanitization is idempotent and never emits invalid
characters -/

/-- Claim C5: for every string `x`,
`sanitize_filename (sanitize_filename x) = sanitize_filename x`, and no
character of `sanitize_filename x` is one of `<>:"/\|?*`. -/
theorem c5_sanitize_idem_and_safe (x : String) :
    sanitize_filename (sanitize_filename x) = sanitize_filename x
    ∧ ∀ c ∈ (sanitize_filename x).data, c ∉ invalidChars :=
  ⟨sanitize_filename_idem x, sanitize_filename_no_invalid x⟩

/-- Witness for C5 at the concrete string `"a?b< "`. -/
theorem c5_sanitize_idem_and_safe_witness :
    (sanitize_filename (sanitize_filename "a?b< ") = sanitize_filename "a?b< ")
    ∧ ('a' ∈ (sanitize_filename "a?b< ").data → 'a' ∉ invalidChars) :=
  ⟨(c5_sanitize_idem_and_safe "a?b< ").1,
    fun h => (c5_sanitize_idem_and_safe "a?b< ").2 'a' h⟩

/-! ## Claims C6-C9: the restore reconciler -/

theorem dset_append_of_not_mem {α : Type} (d : List (String × α)) (k : String)
    (v : α) (h : ∀ p ∈ d, p.1 ≠ k) : dset d k v = d ++ [(k, v)] := by
  induction d with
  | nil => rfl
  | cons p d ih =>
    obtain ⟨a, w⟩ := p
    have ha : a ≠ k := h (a, w) (List.mem_cons_self _ _)
    simp only [dset, if_neg ha, List.cons_append, List.cons.injEq, true_and]
    exact ih fun q hq => h q (List.mem_cons_of_mem _ hq)

namespace N8NWorkflowRestore

/-- The cleaned creation body is exactly the allowed fields of the payload
followed by an empty settings object. -/
theorem clean_workflow_for_api_eq (workflow_data : List (String × Json)) :
    clean_workflow_for_api workflow_data
      = workflow_data.filter (fun kv => kv.1 ∈ ["name", "nodes", "connections"])
        ++ [("settings", Json.obj [])] := by
  unfold clean_workflow_for_api
  refine dset_append_of_not_mem _ _ _ fun p hp => ?_
  have hmem : p.1 ∈ ["name", "nodes", "connections"] := by
    simpa using (List.mem_filter.mp hp).2
  intro he
  rw [he] at hmem
  exact absurd hmem (by decide)

/-- Claim C6: a payload whose (hashable) name lookup misses the existence
map is created with a body stripped to `name`/`nodes`/`connections` plus
`settings = {}`; success records `created` with the new id, failure records
`create_failed`.  (An unhashable name value instead raises `TypeError` at
the lookup and takes the exception branch, excluded here by `hu`.) -/
theorem c6_create_path (env : RestoreEnv) (ts file_name : String) (j : Json)
    (existing_workflows : List (String × String)) (mode : String)
    (workflow_data : List (String × Json))
    (hx : extract_workflow_data j = some workflow_data)
    (hu : name_unhashable workflow_data = false)
    (hm : (name_of workflow_data).bind (fun n => dget existing_workflows n) = none) :
    (restore_workflow env ts file_name (some j) existing_workflows mode).2
      = [Req.create (clean_workflow_for_api workflow_data)]
    ∧ clean_workflow_for_api workflow_data
      = workflow_data.filter (fun kv => kv.1 ∈ ["name", "nodes", "connections"])
        ++ [("settings", Json.obj [])]
    ∧ (restore_workflow env ts file_name (some j) existing_workflows mode).1
      = (match env.createResp (clean_workflow_for_api workflow_data) with
        | some new_id => ⟨file_name, "success", some "created", some new_id⟩
        | none => ⟨file_name, "failed", some "create_failed", none⟩) := by
  refine ⟨?_, clean_workflow_for_api_eq workflow_data, ?_⟩ <;>
  · simp only [restore_workflow, hx, hu, hm, Option.filter, create_workflow,
      Bool.false_eq_true, if_false]
    cases hcr : env.createResp (clean_workflow_for_api workflow_data) <;>
      simp [hcr]

/-- Witness for C6: a two-field payload (`name` plus an extra field) against
an empty existence map and an always-succeeding create endpoint. -/
theorem c6_create_path_witness :
    (restore_workflow ⟨fun _ => some "new1", fun _ _ => true⟩ "T" "f.json"
        (some (Json.obj [("name", Json.str "W"), ("extra", Json.null)])) [] "skip").2
      = [Req.create [("name", Json.str "W"), ("settings", Json.obj [])]]
    ∧ (restore_workflow ⟨fun _ => some "new1", fun _ _ => true⟩ "T" "f.json"
        (some (Json.obj [("name", Json.str "W"), ("extra", Json.null)])) [] "skip").1
      = ⟨"f.json", "success", some "created", some "new1"⟩ := by
  have h := c6_create_path ⟨fun _ => some "new1", fun _ _ => true⟩ "T" "f.json"
    (Json.obj [("name", Json.str "W"), ("extra", Json.null)]) [] "skip"
    [("name", Json.str "W"), ("extra", Json.null)] rfl rfl rfl
  exact ⟨by rw [h.1]; rfl, by rw [h.2.2]⟩

theorem dget_filter_of_true {α : Type} (d : List (String × α))
    (p : String × α → Bool) (k : String) (hp : ∀ v, p (k, v) = true) :
    dget (d.filter p) k = dget d k := by
  induction d with
  | nil => rfl
  | cons q d ih =>
    obtain ⟨a, v⟩ := q
    by_cases hak : a = k
    · subst hak
      rw [List.filter_cons, if_pos (hp v)]
      simp [dget]
    · by_cases hq : p (a, v) = true
      · rw [List.filter_cons, if_pos hq]
        simp [dget, hak, ih]
      · rw [List.filter_cons, if_neg hq]
        simp [dget, hak, ih]

/-- A payload whose name key resolves to a string (or is missing) is never
the unhashable-name case. -/
theorem name_of_some_not_unhashable {workflow_data : List (String × Json)}
    {n : String} (hn : name_of workflow_data = some n) :
    name_unhashable workflow_data = false := by
  unfold name_of at hn
  unfold name_unhashable
  cases hd : dget workflow_data "name" with
  | none => rfl
  | some v => cases v <;> simp [hd] at hn ⊢

/-- The cleaned body keeps the payload's `name` field. -/
theorem dget_clean_name (workflow_data : List (String × Json)) :
    dget (clean_workflow_for_api workflow_data) "name" = dget workflow_data "name" := by
  unfold clean_workflow_for_api
  rw [dget_dset_ne _ _ (by decide)]
  exact dget_filter_of_true _ _ _ fun v => rfl

/-- Claim C7: under `rename` mode an existing name is never updated (no
update request is issued, in particular none against the existing id); the
in-memory name is changed to `"<name> (restored <ts>)"` and the same
creation path as for a missing name runs, so applying the run's requests to
any remote state preserves every existing entity and, on success, adds the
newly created suffixed entity. -/
theorem c7_rename_never_overwrites (env : RestoreEnv) (ts file_name : String)
    (j : Json) (existing_workflows : List (String × String))
    (workflow_data : List (String × Json)) (n existing_id : String)
    (hx : extract_workflow_data j = some workflow_data)
    (hn : name_of workflow_data = some n)
    (hid : dget existing_workflows n = some existing_id)
    (hne : existing_id ≠ "") :
    (restore_workflow env ts file_name (some j) existing_workflows "rename").2
      = [Req.create (clean_workflow_for_api
          (dset workflow_data "name" (Json.str (n ++ " (restored " ++ ts ++ ")"))))]
    ∧ (∀ i b, Req.update i b
        ∉ (restore_workflow env ts file_name (some j) existing_workflows "rename").2)
    ∧ dget (clean_workflow_for_api
          (dset workflow_data "name" (Json.str (n ++ " (restored " ++ ts ++ ")"))))
        "name" = some (Json.str (n ++ " (restored " ++ ts ++ ")"))
    ∧ (restore_workflow env ts file_name (some j) existing_workflows "rename").1
      = (match env.createResp (clean_workflow_for_api
            (dset workflow_data "name" (Json.str (n ++ " (restored " ++ ts ++ ")")))) with
        | some new_id => ⟨file_name, "success", some "created_renamed", some new_id⟩
        | none => ⟨file_name, "failed", some "create_failed", none⟩)
    ∧ ∀ st : Remote,
        (∀ p ∈ st, p ∈ applyReqs env st
          (restore_workflow env ts file_name (some j) existing_workflows "rename").2)
        ∧ (∀ new_id, env.createResp (clean_workflow_for_api
              (dset workflow_data "name"
                (Json.str (n ++ " (restored " ++ ts ++ ")")))) = some new_id →
            (new_id, clean_workflow_for_api
              (dset workflow_data "name" (Json.str (n ++ " (restored " ++ ts ++ ")"))))
              ∈ applyReqs env st
                (restore_workflow env ts file_name (some j) existing_workflows "rename").2) := by
  have hpair : restore_workflow env ts file_name (some j) existing_workflows "rename"
      = ((match env.createResp (clean_workflow_for_api
            (dset workflow_data "name" (Json.str (n ++ " (restored " ++ ts ++ ")")))) with
        | some new_id =>
            (⟨file_name, "success", some "created_renamed", some new_id⟩ : RestoreResult)
        | none => ⟨file_name, "failed", some "create_failed", none⟩),
        [Req.create (clean_workflow_for_api
          (dset workflow_data "name" (Json.str (n ++ " (restored " ++ ts ++ ")"))))]) := by
    have hfil : ((name_of workflow_data).bind
        (fun n => dget existing_workflows n)).filter (fun s => !(s == ""))
        = some existing_id := by
      rw [hn, Option.some_bind, hid]
      simp [Option.filter, hne]
    have hu : name_unhashable workflow_data = false :=
      name_of_some_not_unhashable hn
    simp only [restore_workflow, hx, hu, hfil, hn, Option.getD_some,
      create_workflow, Bool.false_eq_true, if_false, if_true]
    cases hcr : env.createResp (clean_workflow_for_api
        (dset workflow_data "name" (Json.str (n ++ " (restored " ++ ts ++ ")")))) <;>
      simp [hcr, hid, Option.filter, hne]
  refine ⟨by rw [hpair], by rw [hpair]; simp, ?_, by rw [hpair], ?_⟩
  · rw [dget_clean_name, dget_dset_self]
  · intro st
    rw [hpair]
    simp only [applyReqs, List.foldl_cons, List.foldl_nil, applyReq]
    cases hcr : env.createResp (clean_workflow_for_api
        (dset workflow_data "name" (Json.str (n ++ " (restored " ++ ts ++ ")")))) with
    | none =>
      exact ⟨fun p hp => hp, fun new_id hh => absurd hh (by simp)⟩
    | some new_id =>
      refine ⟨fun p hp => List.mem_append_left _ hp, fun nid hh => ?_⟩
      obtain rfl : new_id = nid := by simpa using hh
      simp

/-- Witness for C7: snapshot payload named `"Dup"`, remote map containing
`"Dup" → "id9"`, an always-succeeding create endpoint, and the concrete
remote state holding entity `"id9"`. -/
theorem c7_rename_never_overwrites_witness :
    (restore_workflow ⟨fun _ => some "newR", fun _ _ => true⟩ "TS" "f.json"
        (some (Json.obj [("name", Json.str "Dup"), ("nodes", Json.arr [])]))
        [("Dup", "id9")] "rename").2
      = [Req.create [("name", Json.str "Dup (restored TS)"), ("nodes", Json.arr []),
          ("settings", Json.obj [])]]
    ∧ Req.update "id9" []
        ∉ (restore_workflow ⟨fun _ => some "newR", fun _ _ => true⟩ "TS" "f.json"
            (some (Json.obj [("name", Json.str "Dup"), ("nodes", Json.arr [])]))
            [("Dup", "id9")] "rename").2
    ∧ (restore_workflow ⟨fun _ => some "newR", fun _ _ => true⟩ "TS" "f.json"
        (some (Json.obj [("name", Json.str "Dup"), ("nodes", Json.arr [])]))
        [("Dup", "id9")] "rename").1
      = ⟨"f.json", "success", some "created_renamed", some "newR"⟩
    ∧ ("id9", [("name", Json.str "Dup")])
        ∈ applyReqs ⟨fun _ => some "newR", fun _ _ => true⟩
            [("id9", [("name", Json.str "Dup")])]
            (restore_workflow ⟨fun _ => some "newR", fun _ _ => true⟩ "TS" "f.json"
              (some (Json.obj [("name", Json.str "Dup"), ("nodes", Json.arr [])]))
              [("Dup", "id9")] "rename").2
    ∧ ("newR", [("name", Json.str "Dup (restored TS)"), ("nodes", Json.arr []),
          ("settings", Json.obj [])])
        ∈ applyReqs ⟨fun _ => some "newR", fun _ _ => true⟩
            [("id9", [("name", Json.str "Dup")])]
            (restore_workflow ⟨fun _ => some "newR", fun _ _ => true⟩ "TS" "f.json"
              (some (Json.obj [("name", Json.str "Dup"), ("nodes", Json.arr [])]))
              [("Dup", "id9")] "rename").2 := by
  have h := c7_rename_never_overwrites ⟨fun _ => some "newR", fun _ _ => true⟩ "TS"
    "f.json" (Json.obj [("name", Json.str "Dup"), ("nodes", Json.arr [])])
    [("Dup", "id9")] [("name", Json.str "Dup"), ("nodes", Json.arr [])] "Dup" "id9"
    rfl rfl rfl (by decide)
  have h5 := h.2.2.2.2 [("id9", [("name", Json.str "Dup")])]
  have hbody : clean_workflow_for_api
      (dset [("name", Json.str "Dup"), ("nodes", Json.arr [])] "name"
        (Json.str ("Dup" ++ " (restored " ++ "TS" ++ ")")))
      = [("name", Json.str "Dup (restored TS)"), ("nodes", Json.arr []),
          ("settings", Json.obj [])] := rfl
  refine ⟨by rw [h.1, hbody], h.2.1 "id9" [], ?_, h5.1 _ (by simp), ?_⟩
  · have h4 := h.2.2.2.1
    rw [hbody] at h4
    rw [h4]
  · have h2 := h5.2 "newR" rfl
    rw [hbody] at h2
    exact h2

/-- Results from `restore_workflow` whose action is `created` or
`created_renamed` always carry status `success`. -/
theorem restore_action_created_success (env : RestoreEnv) (ts file_name : String)
    (content : Option Json) (existing : List (String × String)) (mode : String)
    (h : (restore_workflow env ts file_name content existing mode).1.action
          = some "created"
        ∨ (restore_workflow env ts file_name content existing mode).1.action
          = some "created_renamed") :
    (restore_workflow env ts file_name content existing mode).1.status
      = "success" := by
  rcases content with _ | j
  · simp [restore_workflow] at h
  · rcases hx : extract_workflow_data j with _ | wd
    · simp [restore_workflow, hx] at h
    · by_cases hu : name_unhashable wd = true
      · simp [restore_workflow, hx, hu] at h
      · rcases hf : ((name_of wd).bind
            (fun n => dget existing n)).filter (fun s => !(s == "")) with _ | eid
        · rcases hcr : env.createResp (clean_workflow_for_api wd) with _ | nid
          · simp [restore_workflow, hx, hu, hf, create_workflow, hcr] at h
          · simp [restore_workflow, hx, hu, hf, create_workflow, hcr]
        · by_cases hm1 : mode = "skip"
          · simp [restore_workflow, hx, hu, hf, hm1] at h
          · by_cases hm2 : mode = "update"
            · cases hup : env.updateResp eid wd
              · simp [restore_workflow, hx, hu, hf, hm1, hm2, update_workflow,
                  hup] at h
              · simp [restore_workflow, hx, hu, hf, hm1, hm2, update_workflow, hup]
            · by_cases hm3 : mode = "rename"
              · cases hcr : env.createResp (clean_workflow_for_api (dset wd "name"
                    (Json.str ((name_of wd).getD "Unnamed" ++ " (restored " ++ ts ++ ")"))))
                · simp [restore_workflow, hx, hu, hf, hm1, hm2, hm3,
                    create_workflow, hcr] at h
                · simp [restore_workflow, hx, hu, hf, hm1, hm2, hm3,
                    create_workflow, hcr]
              · simp [restore_workflow, hx, hu, hf, hm1, hm2, hm3] at h

/-- Lemma: `tally` appends the result to the result list unchanged. -/
theorem tally_results (st : Stats) (r : RestoreResult) :
    (tally st r).results = st.results ++ [r] := by
  simp only [tally]
  split_ifs <;> rfl

/-- Closed form for one `tally` step. -/
theorem tally_char (st : Stats) (r : RestoreResult) :
    tally st r = { st with
      results := st.results ++ [r],
      created := st.created + (if r.status = "success"
          ∧ (r.action = some "created" ∨ r.action = some "created_renamed")
        then 1 else 0),
      updated := st.updated + (if r.status = "success"
          ∧ ¬(r.action = some "created" ∨ r.action = some "created_renamed")
          ∧ r.action = some "updated" then 1 else 0),
      skipped := st.skipped + (if r.status ≠ "success" ∧ r.status = "skipped"
        then 1 else 0),
      failed := st.failed + (if r.status ≠ "success" ∧ r.status ≠ "skipped"
          ∧ (r.status = "failed" ∨ r.status = "error") then 1 else 0) } := by
  simp only [tally]
  split_ifs with hs hc hu hk hf <;> simp_all

/-- One fold step preserves the counter/`countP` invariant. -/
theorem tally_inv_step (st : Stats) (r : RestoreResult)
    (hr : (r.action = some "created" ∨ r.action = some "created_renamed")
      → r.status = "success")
    (h1 : st.created = st.results.countP (fun x =>
      x.action == some "created" || x.action == some "created_renamed"))
    (h2 : st.updated = st.results.countP (fun x =>
      x.action == some "updated" && x.status == "success"))
    (h3 : st.skipped = st.results.countP (fun x => x.status == "skipped"))
    (h4 : st.failed = st.results.countP (fun x =>
      x.status == "failed" || x.status == "error")) :
    (tally st r).created = (tally st r).results.countP (fun x =>
      x.action == some "created" || x.action == some "created_renamed")
    ∧ (tally st r).updated = (tally st r).results.countP (fun x =>
      x.action == some "updated" && x.status == "success")
    ∧ (tally st r).skipped = (tally st r).results.countP (fun x =>
      x.status == "skipped")
    ∧ (tally st r).failed = (tally st r).results.countP (fun x =>
      x.status == "failed" || x.status == "error") := by
  rw [tally_char]
  simp only [List.countP_append, List.countP_cons, List.countP_nil, Nat.zero_add]
  refine ⟨?_, ?_, ?_, ?_⟩
  · rw [h1]
    congr 1
    by_cases ha : r.action = some "created" ∨ r.action = some "created_renamed"
    · rw [if_pos ⟨hr ha, ha⟩]
      rcases ha with ha | ha <;> simp [ha]
    · rw [if_neg (fun hh => ha hh.2)]
      have hna : ¬(r.action == some "created" || r.action == some "created_renamed") = true := by
        simpa using ha
      simp [hna]
  · rw [h2]
    congr 1
    by_cases hu : r.action = some "updated"
    · have hset : ¬(r.action = some "created" ∨ r.action = some "created_renamed") := by
        rw [hu]; rintro (hh | hh) <;> simp at hh
      by_cases hsu : r.status = "success"
      · rw [if_pos ⟨hsu, hset, hu⟩]
        simp [hu, hsu]
      · rw [if_neg (fun hh => hsu hh.1)]
        simp [hu, hsu]
    · rw [if_neg (fun hh => hu hh.2.2)]
      simp [hu]
  · rw [h3]
    congr 1
    by_cases hk : r.status = "skipped"
    · rw [if_pos ⟨by rw [hk]; decide, hk⟩]
      simp [hk]
    · rw [if_neg (fun hh => hk hh.2)]
      simp [hk]
  · rw [h4]
    congr 1
    by_cases hf : r.status = "failed" ∨ r.status = "error"
    · have hns : r.status ≠ "success" := by
        rcases hf with hf | hf <;> rw [hf] <;> decide
      have hnk : r.status ≠ "skipped" := by
        rcases hf with hf | hf <;> rw [hf] <;> decide
      rw [if_pos ⟨hns, hnk, hf⟩]
      rcases hf with hf | hf <;> simp [hf]
    · rw [if_neg (fun hh => hf hh.2.2)]
      have hnf : ¬(r.status == "failed" || r.status == "error") = true := by
        simpa using hf
      simp [hnf]

/-- Fold invariant for the `restore_from_backup` loop. -/
theorem restore_fold_inv (env : RestoreEnv) (ts : String)
    (existing : List (String × String)) (mode : String)
    (fs : List (String × Option Json)) (st : Stats)
    (h1 : st.created = st.results.countP (fun x =>
      x.action == some "created" || x.action == some "created_renamed"))
    (h2 : st.updated = st.results.countP (fun x =>
      x.action == some "updated" && x.status == "success"))
    (h3 : st.skipped = st.results.countP (fun x => x.status == "skipped"))
    (h4 : st.failed = st.results.countP (fun x =>
      x.status == "failed" || x.status == "error")) :
    (fs.foldl (fun s f => tally s
        (restore_workflow env ts f.1 f.2 existing mode).1) st).created
      = (fs.foldl (fun s f => tally s
          (restore_workflow env ts f.1 f.2 existing mode).1) st).results.countP
          (fun x => x.action == some "created" || x.action == some "created_renamed")
    ∧ (fs.foldl (fun s f => tally s
        (restore_workflow env ts f.1 f.2 existing mode).1) st).updated
      = (fs.foldl (fun s f => tally s
          (restore_workflow env ts f.1 f.2 existing mode).1) st).results.countP
          (fun x => x.action == some "updated" && x.status == "success")
    ∧ (fs.foldl (fun s f => tally s
        (restore_workflow env ts f.1 f.2 existing mode).1) st).skipped
      = (fs.foldl (fun s f => tally s
          (restore_workflow env ts f.1 f.2 existing mode).1) st).results.countP
          (fun x => x.status == "skipped")
    ∧ (fs.foldl (fun s f => tally s
        (restore_workflow env ts f.1 f.2 existing mode).1) st).failed
      = (fs.foldl (fun s f => tally s
          (restore_workflow env ts f.1 f.2 existing mode).1) st).results.countP
          (fun x => x.status == "failed" || x.status == "error") := by
  induction fs generalizing st with
  | nil => exact ⟨h1, h2, h3, h4⟩
  | cons f fs ih =>
    simp only [List.foldl_cons]
    have hstep := tally_inv_step st (restore_workflow env ts f.1 f.2 existing mode).1
      (restore_action_created_success env ts f.1 f.2 existing mode) h1 h2 h3 h4
    exact ih _ hstep.1 hstep.2.1 hstep.2.2.1 hstep.2.2.2

/-- Claim C8: in the final stats of `restore_from_backup`, `created` counts
the results with action `created`/`created_renamed`, `updated` the results
with action `updated` and status `success`, `skipped` the results with
status `skipped`, and `failed` the results with status `failed` or
`error`. -/
theorem c8_tally_counts (env : RestoreEnv) (ts : String)
    (pages : List PageResult) (workflow_files : List (String × Option Json))
    (mode : String) (dry_run : Bool) :
    (restore_from_backup env ts pages workflow_files mode dry_run).created
      = (restore_from_backup env ts pages workflow_files mode
          dry_run).results.countP (fun x =>
          x.action == some "created" || x.action == some "created_renamed")
    ∧ (restore_from_backup env ts pages workflow_files mode dry_run).updated
      = (restore_from_backup env ts pages workflow_files mode
          dry_run).results.countP (fun x =>
          x.action == some "updated" && x.status == "success")
    ∧ (restore_from_backup env ts pages workflow_files mode dry_run).skipped
      = (restore_from_backup env ts pages workflow_files mode
          dry_run).results.countP (fun x => x.status == "skipped")
    ∧ (restore_from_backup env ts pages workflow_files mode dry_run).failed
      = (restore_from_backup env ts pages workflow_files mode
          dry_run).results.countP (fun x =>
          x.status == "failed" || x.status == "error") := by
  unfold restore_from_backup
  split_ifs
  · exact ⟨rfl, rfl, rfl, rfl⟩
  · exact ⟨rfl, rfl, rfl, rfl⟩
  · exact restore_fold_inv env ts (get_existing_workflows pages) mode
      workflow_files _ rfl rfl rfl rfl

/-- The restore loop produces exactly one result per candidate file, in
order, regardless of per-file failures. -/
theorem restore_fold_results (env : RestoreEnv) (ts : String)
    (existing : List (String × String)) (mode : String)
    (fs : List (String × Option Json)) (st : Stats) :
    (fs.foldl (fun s f => tally s
        (restore_workflow env ts f.1 f.2 existing mode).1) st).results
      = st.results ++ fs.map (fun f =>
          (restore_workflow env ts f.1 f.2 existing mode).1) := by
  induction fs generalizing st with
  | nil => simp
  | cons f fs ih =>
    simp only [List.foldl_cons, List.map_cons]
    rw [ih, tally_results, List.append_assoc, List.singleton_append]

/-- Claim C9: a file whose processing raises (e.g. a JSON parse error) is
recorded as `status = error`, `action = exception`, with no request issued,
and the surrounding `restore_from_backup` loop still produces one result per
file — one malformed file never aborts the batch. -/
theorem c9_exception_isolated (env : RestoreEnv) (ts : String)
    (pages : List PageResult) (workflow_files : List (String × Option Json))
    (mode : String) (hne : workflow_files ≠ []) :
    (∀ file_name existing mode',
      restore_workflow env ts file_name none existing mode'
        = (⟨file_name, "error", some "exception", none⟩, []))
    ∧ (restore_from_backup env ts pages workflow_files mode false).results
      = workflow_files.map (fun f =>
          (restore_workflow env ts f.1 f.2 (get_existing_workflows pages) mode).1) := by
  refine ⟨fun file_name existing mode' => rfl, ?_⟩
  unfold restore_from_backup
  rw [if_neg (by simpa using hne), if_neg (by simp)]
  rw [restore_fold_results]
  rfl

/-- Witness for C9: a batch with one unparseable file and one good file; the
bad file yields the exception record and the good file is still restored. -/
theorem c9_exception_isolated_witness :
    (restore_workflow ⟨fun _ => some "n1", fun _ _ => true⟩ "T" "bad.json" none []
        "skip" = (⟨"bad.json", "error", some "exception", none⟩, []))
    ∧ (restore_from_backup ⟨fun _ => some "n1", fun _ _ => true⟩ "T"
        [PageResult.ok [] false]
        [("bad.json", none), ("good.json", some (Json.obj [("name", Json.str "W")]))]
        "skip" false).results
      = [⟨"bad.json", "error", some "exception", none⟩,
         ⟨"good.json", "success", some "created", some "n1"⟩] := by
  have h := c9_exception_isolated ⟨fun _ => some "n1", fun _ _ => true⟩ "T"
    [PageResult.ok [] false]
    [("bad.json", none), ("good.json", some (Json.obj [("name", Json.str "W")]))]
    "skip" (by simp)
  exact ⟨h.1 "bad.json" [] "skip", by rw [h.2]; rfl⟩

/-! ## Claim C10: the name→id existence map -/

theorem find?_append_or (p : α → Bool) (l1 l2 : List α) :
    (l1 ++ l2).find? p = (l1.find? p <|> l2.find? p) := by
  induction l1 with
  | nil => simp
  | cons a l ih =>
    by_cases h : p a
    · simp [List.find?_cons, h]
    · simp [List.find?_cons, h, ih]

/-- Lookup after inserting one page of workflow summaries: the id of the
LAST workflow on the page carrying name `n` (with truthy name and id), else
whatever the accumulated map said. -/
theorem dget_insert_page (n : String) (m : List (String × String))
    (ws : List Workflow) :
    dget (N8NWorkflowRestore.insert_page m ws) n
      = ((ws.reverse.find? (fun w =>
            w.name.getD "" == n && !(n == "") && !(w.id == ""))).map (fun w => w.id)
          <|> dget m n) := by
  induction ws using List.reverseRecOn generalizing m with
  | nil => simp [N8NWorkflowRestore.insert_page]
  | append_singleton l a ih =>
    have hstep : N8NWorkflowRestore.insert_page m (l ++ [a])
        = (if a.name.getD "" ≠ "" ∧ a.id ≠ ""
          then dset (N8NWorkflowRestore.insert_page m l) (a.name.getD "") a.id
          else N8NWorkflowRestore.insert_page m l) := by
      simp [N8NWorkflowRestore.insert_page, List.foldl_append]
    rw [hstep, List.reverse_append]
    simp only [List.reverse_singleton, List.singleton_append, List.find?_cons]
    by_cases hp : (a.name.getD "" == n && !(n == "") && !(a.id == "")) = true
    · obtain ⟨⟨hn1, hn2⟩, hn3⟩ : (a.name.getD "" = n ∧ n ≠ "") ∧ a.id ≠ "" := by
        simpa [Bool.and_eq_true] using hp
      rw [if_pos ⟨by rw [hn1]; exact hn2, hn3⟩, hp]
      rw [hn1, dget_dset_self]
      simp
    · rw [Bool.not_eq_true] at hp
      rw [hp]
      by_cases hv : a.name.getD "" ≠ "" ∧ a.id ≠ ""
      · have hne : a.name.getD "" ≠ n := by
          intro he
          apply (Bool.not_eq_true _).mpr hp
          simp [he, Bool.and_eq_true]
          exact ⟨fun hne => hv.1 (he.trans hne), hv.2⟩
        rw [if_pos hv, dget_dset_ne _ _ (fun hh => hne hh.symm)]
        exact ih m
      · rw [if_neg hv]
        exact ih m

/-- Lookup in the map built by the pagination loop of
`get_existing_workflows`, for an error-free complete trace. -/
theorem dget_get_existing_go (n : String) (pages : List PageResult) :
    completeTrace pages = true → ∀ m,
    dget (N8NWorkflowRestore.get_existing_workflows_go m pages) n
      = (((consumedData pages).reverse.find? (fun w =>
            w.name.getD "" == n && !(n == "") && !(w.id == ""))).map (fun w => w.id)
          <|> dget m n) := by
  induction pages with
  | nil => intro hc; simp [completeTrace] at hc
  | cons p rest ih =>
    intro hc m
    cases p with
    | err => simp [completeTrace] at hc
    | ok ws next =>
      cases next with
      | false =>
        show dget (N8NWorkflowRestore.insert_page m ws) n = _
        rw [dget_insert_page]
        rfl
      | true =>
        have hc' : completeTrace rest = true := by
          simpa [completeTrace] using hc
        show dget (N8NWorkflowRestore.get_existing_workflows_go
            (N8NWorkflowRestore.insert_page m ws) rest) n = _
        rw [ih hc' (N8NWorkflowRestore.insert_page m ws), dget_insert_page]
        rw [show consumedData (PageResult.ok ws true :: rest)
            = ws ++ consumedData rest from rfl]
        rw [List.reverse_append, find?_append_or]
        cases (consumedData rest).reverse.find? (fun w =>
            w.name.getD "" == n && !(n == "") && !(w.id == "")) <;> simp

/-- Claim C10: in the existence map built by `get_existing_workflows` over a
complete pagination run, a remote entity with an empty/missing name or id
is omitted, and a name shared by several remote entities resolves to the id
of the LAST such entity in pagination order. -/
theorem c10_existing_map (pages : List PageResult)
    (hc : completeTrace pages = true) (n : String) :
    dget (N8NWorkflowRestore.get_existing_workflows pages) n
      = ((consumedData pages).reverse.find? (fun w =>
          w.name.getD "" == n && !(n == "") && !(w.id == ""))).map (fun w => w.id) := by
  unfold N8NWorkflowRestore.get_existing_workflows
  rw [dget_get_existing_go n pages hc []]
  cases ((consumedData pages).reverse.find? (fun w =>
      w.name.getD "" == n && !(n == "") && !(w.id == ""))).map (fun w => w.id) <;>
    simp [dget]

/-- Witness for C10: a single page with a duplicate name (`"Dup"` under ids
`"i1"` and `"i3"`), a nameless workflow, and an id-less workflow.  The map
keeps `"Dup" → "i3"` (the last one) and omits the defective entries. -/
theorem c10_existing_map_witness :
    dget (N8NWorkflowRestore.get_existing_workflows
        [PageResult.ok [⟨"i1", some "Dup", false, []⟩, ⟨"i2", none, false, []⟩,
          ⟨"", some "X", false, []⟩, ⟨"i3", some "Dup", false, []⟩] false]) "Dup"
      = some "i3"
    ∧ dget (N8NWorkflowRestore.get_existing_workflows
        [PageResult.ok [⟨"i1", some "Dup", false, []⟩, ⟨"i2", none, false, []⟩,
          ⟨"", some "X", false, []⟩, ⟨"i3", some "Dup", false, []⟩] false]) "X"
      = none
    ∧ dget (N8NWorkflowRestore.get_existing_workflows
        [PageResult.ok [⟨"i1", some "Dup", false, []⟩, ⟨"i2", none, false, []⟩,
          ⟨"", some "X", false, []⟩, ⟨"i3", some "Dup", false, []⟩] false]) ""
      = none := by
  have h := c10_existing_map
    [PageResult.ok [⟨"i1", some "Dup", false, []⟩, ⟨"i2", none, false, []⟩,
      ⟨"", some "X", false, []⟩, ⟨"i3", some "Dup", false, []⟩] false] rfl
  exact ⟨(h "Dup").trans (by rfl), (h "X").trans (by rfl), (h "").trans (by rfl)⟩

end N8NWorkflowRestore

end N8N
